import Mathlib

/-!
Verification of the denormalized rating-aggregation and location-counter
subsystem of the Nomad-Cafes Django backend.

The embedding models the database tables as lists of rows and the write-path
operations (review create / soft-delete, cafe create / update / delete with
their signal handlers) as pure functions on a `DB` value, translated from:

  - backend/apps/cafes/models.py     (`Cafe.update_rating_stats`, rating columns)
  - backend/apps/cafes/signals.py    (`cafe_pre_save`, `cafe_post_save`,
                                      `cafe_post_delete`, `update_location_cafe_count`)
  - backend/apps/reviews/models.py   (`Review`, `Review.save`)
  - backend/apps/reviews/api/serializers.py (`ReviewCreateSerializer.validate`)
  - backend/apps/reviews/api/views.py (`CafeReviewViewSet.destroy`)

Ratings live in `ℚ`; the fixed-point storage of the `DecimalField(max_digits=3,
decimal_places=2)` columns is modelled separately by `quantize2`.
-/

/-- One row of the `reviews` table (backend/apps/reviews/models.py, class
`Review`).  `rating_overall` is a required 1..5 integer; the four dimension
ratings are nullable 1..5 integers; `is_active` is the soft-delete flag.
Ids (UUIDs in the source) are modelled as `Nat`. -/
structure ReviewRow where
  id : Nat
  cafeId : Nat
  userId : Nat
  rating_overall : Nat
  rating_wifi : Option Nat
  rating_power : Option Nat
  rating_noise : Option Nat
  rating_coffee : Option Nat
  is_active : Bool
  deriving DecidableEq, Repr

/-- One row of the `cafes` table (backend/apps/cafes/models.py, class `Cafe`),
restricted to the columns the aggregation subsystem reads or writes.  The five
rating columns are `DecimalField(max_digits=3, decimal_places=2)` in the
source; they are carried here as exact rationals, with column quantization
modelled by `quantize2` below. -/
structure CafeRow where
  id : Nat
  locationId : Nat
  is_active : Bool
  rating_avg : ℚ
  rating_wifi : ℚ
  rating_power : ℚ
  rating_noise : ℚ
  rating_coffee : ℚ
  rating_count : Nat
  deriving DecidableEq, Repr

/-- One row of the `locations` table (backend/apps/locations/models.py, class
`Location`), restricted to the denormalized counter.  `cafe_count` is a
`PositiveIntegerField` maintained by relative `F`-expression updates; it is
carried as `Int` so the relative-update arithmetic is explicit. -/
structure LocationRow where
  id : Nat
  cafe_count : Int
  deriving DecidableEq, Repr

/-- The database state: the three tables the aggregation subsystem touches. -/
structure DB where
  locations : List LocationRow
  cafes : List CafeRow
  reviews : List ReviewRow
  deriving DecidableEq, Repr

/-- Database-layer failure surfaced by `Model.save(update_fields=...)` when the
UPDATE matches no row (Django >= 4.1 raises
`DatabaseError("Save with update_fields did not affect any rows.")`; the
settings file uses the Django >= 4.2 `STORAGES` setting). -/
inductive DbError where
  | saveNoRowsUpdated
  deriving DecidableEq, Repr

/-- SQL `Avg` aggregate over the non-null values of a column: `none` when
there are no rows (Django's `Avg` returns `None`), otherwise the exact
rational mean. -/
def sqlAvg (vals : List Nat) : Option ℚ :=
  match vals with
  | [] => none
  | _ => some ((vals.map (fun x : Nat => (x : ℚ))).sum / (vals.length : ℚ))

/-- `self.reviews.filter(is_active=True)` for a cafe: the active reviews whose
`cafe_id` matches (backend/apps/cafes/models.py line 320). -/
def activeReviewsOf (db : DB) (cafeId : Nat) : List ReviewRow :=
  db.reviews.filter (fun r => r.cafeId == cafeId && r.is_active)

/-- The six assignments of `Cafe.update_rating_stats`
(backend/apps/cafes/models.py lines 329-334): each average column receives
`stats["avg_..."] or 0` — the `Avg` aggregate when some row contributed,
else 0 — and `rating_count` receives `Count("id")` over the active reviews. -/
def ratingStatsRow (active : List ReviewRow) (c : CafeRow) : CafeRow :=
  { c with
    rating_avg := (sqlAvg (active.map (fun r => r.rating_overall))).getD 0,
    rating_wifi := (sqlAvg (active.filterMap (fun r => r.rating_wifi))).getD 0,
    rating_power := (sqlAvg (active.filterMap (fun r => r.rating_power))).getD 0,
    rating_noise := (sqlAvg (active.filterMap (fun r => r.rating_noise))).getD 0,
    rating_coffee := (sqlAvg (active.filterMap (fun r => r.rating_coffee))).getD 0,
    rating_count := active.length }

/-- `Cafe.update_rating_stats` (backend/apps/cafes/models.py lines 313-344):
aggregate `Avg` of `rating_overall` and of each nullable dimension plus
`Count("id")` over the cafe's active reviews, assign each `avg or 0`, and
persist via `self.save(update_fields=[...])`.  The save issues an UPDATE on
the cafe's row; when no row with that id exists the save raises (modelled as
`DbError.saveNoRowsUpdated`), otherwise exactly the six summary columns of
that row are overwritten.  (That save fires the cafe signal handlers too, but
with `location_id` and `is_active` unchanged they adjust no counter.) -/
def update_rating_stats (db : DB) (cafeId : Nat) : Except DbError DB :=
  let active := activeReviewsOf db cafeId
  if db.cafes.any (fun c => c.id == cafeId) then
    Except.ok { db with cafes := db.cafes.map (fun c =>
      if c.id == cafeId then ratingStatsRow active c else c) }
  else
    Except.error DbError.saveNoRowsUpdated

/-- Storage semantics of the rating columns
(`DecimalField(max_digits=3, decimal_places=2)`, backend/apps/cafes/models.py
lines 211-236): the database quantizes the assigned numeric value to two
fraction digits, rounding halves away from zero.  The rating averages are
nonnegative, for which that is `⌊x * 100 + 1/2⌋ / 100`. -/
def quantize2 (x : ℚ) : ℚ :=
  ((x * 100 + 1/2).floor : ℚ) / 100

/-- Arithmetic mean as the specification states it: `0` for an empty list,
otherwise the sum divided by the number of elements
(spec.md section 4.1, "compute the arithmetic mean ... (0 if no rows)"). -/
def specMean (vals : List ℚ) : ℚ :=
  if vals.length = 0 then 0 else vals.sum / (vals.length : ℚ)

/-- `update_location_cafe_count` (backend/apps/cafes/signals.py lines 62-76):
`Location.objects.filter(id=location_id).update(cafe_count=F("cafe_count") + delta)`.
A relative update applied to the matching location rows; a no-op when no row
matches. -/
def update_location_cafe_count (locs : List LocationRow) (locationId : Nat)
    (delta : Int) : List LocationRow :=
  locs.map (fun L =>
    if L.id == locationId then { L with cafe_count := L.cafe_count + delta } else L)

/-- Creating a cafe: the INSERT plus the `created` branch of `cafe_post_save`
(backend/apps/cafes/signals.py lines 33-36): if the new cafe is active its
location's count is incremented by 1. -/
def createCafe (db : DB) (row : CafeRow) : DB :=
  let db1 := { db with cafes := row :: db.cafes }
  if row.is_active then
    { db1 with locations := update_location_cafe_count db1.locations row.locationId 1 }
  else db1

/-- Saving an existing cafe with possibly-changed `location_id` / `is_active`:
`cafe_pre_save` captures the old row's `location_id` and `is_active`
(signals.py lines 14-27), the UPDATE writes the row, and the not-`created`
branch of `cafe_post_save` (signals.py lines 37-52) adjusts the counters:
on a location change, decrement the old location if the cafe was active and
increment the new location if it now is; else on an `is_active` flip, adjust
the (unchanged) location by plus/minus 1.  When no row with the pk exists,
Django's `save` INSERTs and `post_save` fires with `created=True`, which is
the `createCafe` path (the inserted instance's rating fields default to 0). -/
def updateCafe (db : DB) (cafeId newLocationId : Nat) (newActive : Bool) : DB :=
  match db.cafes.find? (fun c => c.id == cafeId) with
  | none =>
      createCafe db
        { id := cafeId, locationId := newLocationId, is_active := newActive,
          rating_avg := 0, rating_wifi := 0, rating_power := 0,
          rating_noise := 0, rating_coffee := 0, rating_count := 0 }
  | some old =>
      let newRow := { old with locationId := newLocationId, is_active := newActive }
      let db1 := { db with cafes := db.cafes.map (fun c =>
        if c.id == cafeId then newRow else c) }
      if old.locationId != newLocationId then
        let locs1 :=
          if old.is_active then
            update_location_cafe_count db1.locations old.locationId (-1)
          else db1.locations
        let locs2 :=
          if newActive then
            update_location_cafe_count locs1 newLocationId 1
          else locs1
        { db1 with locations := locs2 }
      else if old.is_active != newActive then
        let delta : Int := if newActive then 1 else -1
        { db1 with locations :=
            update_location_cafe_count db1.locations newLocationId delta }
      else db1

/-- Deleting a cafe: the DELETE (which cascades to the cafe's reviews,
`on_delete=CASCADE` on `Review.cafe`) plus `cafe_post_delete`
(signals.py lines 55-59): if the deleted cafe was active its location's count
is decremented by 1.  Deleting a pk with no row is a no-op (no signal fires). -/
def deleteCafe (db : DB) (cafeId : Nat) : DB :=
  match db.cafes.find? (fun c => c.id == cafeId) with
  | none => db
  | some old =>
      let db1 := { db with
        cafes := db.cafes.filter (fun c => !(c.id == cafeId)),
        reviews := db.reviews.filter (fun r => !(r.cafeId == cafeId)) }
      if old.is_active then
        { db1 with locations :=
            update_location_cafe_count db1.locations old.locationId (-1) }
      else db1

/-- The cafe mutations whose counter side effects the signal handlers cover:
create, save of an existing row (location move and/or active flip), delete. -/
inductive CafeMut where
  | create (row : CafeRow)
  | update (cafeId newLocationId : Nat) (newActive : Bool)
  | delete (cafeId : Nat)
  deriving DecidableEq, Repr

/-- Apply one cafe mutation together with its signal handlers. -/
def applyCafeMut (db : DB) (m : CafeMut) : DB :=
  match m with
  | CafeMut.create row => createCafe db row
  | CafeMut.update cid nl na => updateCafe db cid nl na
  | CafeMut.delete cid => deleteCafe db cid

/-- Number of active cafes referencing a location, as an integer. -/
def activeCafeCount (db : DB) (locationId : Nat) : Int :=
  (db.cafes.countP (fun c => c.is_active && c.locationId == locationId) : Int)

/-- The Location-counter invariant (spec.md section 3): every location row's
`cafe_count` equals the number of cafes with `is_active=true` referencing it. -/
abbrev LocationCountInv (db : DB) : Prop :=
  ∀ L ∈ db.locations, L.cafe_count = activeCafeCount db L.id

/-- Well-formedness used by the update/delete preservation arguments: primary
keys of the `cafes` table are unique. -/
abbrev CafeIdsNodup (db : DB) : Prop :=
  (db.cafes.map (fun c => c.id)).Nodup

/-- Errors surfaced by the review write flows. -/
inductive ApiError where
  | alreadyReviewed
  | notFound
  | dbError (e : DbError)
  deriving DecidableEq, Repr

/-- The rating payload of `ReviewCreateSerializer`
(backend/apps/reviews/api/serializers.py lines 70-114). -/
structure ReviewInput where
  rating_overall : Nat
  rating_wifi : Option Nat
  rating_power : Option Nat
  rating_noise : Option Nat
  rating_coffee : Option Nat
  deriving DecidableEq, Repr

/-- Review creation: `ReviewCreateSerializer.validate` (serializers.py lines
99-109) rejects the write with a validation error when
`Review.objects.filter(user=user, cafe=cafe).exists()` — note: no `is_active`
filter — and otherwise `create` INSERTs the row (active by default) after
which `Review.save` (backend/apps/reviews/models.py lines 102-105) calls
`self.cafe.update_rating_stats()`.  `mkReviewRow` is the row the serializer
`create` INSERTs: the validated payload plus the (user, cafe) pair from the
request context, active by default. -/
def mkReviewRow (newId userId cafeId : Nat) (input : ReviewInput) : ReviewRow :=
  { id := newId, cafeId := cafeId, userId := userId,
    rating_overall := input.rating_overall,
    rating_wifi := input.rating_wifi,
    rating_power := input.rating_power,
    rating_noise := input.rating_noise,
    rating_coffee := input.rating_coffee,
    is_active := true }

def reviewCreate (db : DB) (newId userId cafeId : Nat) (input : ReviewInput) :
    Except ApiError DB :=
  if db.reviews.any (fun r => r.userId == userId && r.cafeId == cafeId) then
    Except.error ApiError.alreadyReviewed
  else
    match update_rating_stats
        { db with reviews := db.reviews ++ [mkReviewRow newId userId cafeId input] }
        cafeId with
    | Except.ok db2 => Except.ok db2
    | Except.error e => Except.error (ApiError.dbError e)

/-- Review soft-delete: `CafeReviewViewSet.destroy`
(backend/apps/reviews/api/views.py lines 97-106) looks the review up, sets
`is_active = False` and saves it — `Review.save` already triggers
`update_rating_stats` — then calls `instance.cafe.update_rating_stats()` a
second time. -/
def reviewDestroy (db : DB) (reviewId : Nat) : Except ApiError DB :=
  match db.reviews.find? (fun r => r.id == reviewId) with
  | none => Except.error ApiError.notFound
  | some r =>
      match update_rating_stats
          { db with reviews := db.reviews.map (fun x =>
              if x.id == reviewId then { x with is_active := false } else x) }
          r.cafeId with
      | Except.error e => Except.error (ApiError.dbError e)
      | Except.ok db2 =>
          match update_rating_stats db2 r.cafeId with
          | Except.error e => Except.error (ApiError.dbError e)
          | Except.ok db3 => Except.ok db3

/-! ### List-level helper lemmas -/

/-- Mapping a guarded rewrite over a list none of whose elements match the
guard is the identity. -/
theorem map_guard_eq_self {α : Type} {p : α → Bool} {f : α → α} {l : List α}
    (h : ∀ a ∈ l, p a = false) :
    l.map (fun a => if p a then f a else a) = l := by
  induction l with
  | nil => rfl
  | cons a t ih =>
      have ha := h a (by simp)
      have ht : ∀ x ∈ t, p x = false := fun x hx => h x (by simp [hx])
      simp [ha, ih ht]

/-- Filtering out a key no element of the list carries is the identity. -/
theorem filter_out_eq_self {α : Type} {p : α → Bool} {l : List α}
    (h : ∀ a ∈ l, p a = false) :
    l.filter (fun a => !(p a)) = l := by
  rw [List.filter_eq_self]
  intro a ha
  simp [h a ha]

/-- Effect on `countP` of overwriting the unique row carrying a given id. -/
theorem countP_map_replaceRow {l : List CafeRow} {cid : Nat} {newRow old : CafeRow}
    (p : CafeRow → Bool)
    (hnd : (l.map (fun c => c.id)).Nodup)
    (hfind : l.find? (fun c => c.id == cid) = some old) :
    ((l.map (fun c => if c.id == cid then newRow else c)).countP p : Int)
      = (l.countP p : Int)
        + (if p newRow then 1 else 0) - (if p old then 1 else 0) := by
  induction l with
  | nil => simp at hfind
  | cons a t ih =>
      simp only [List.map_cons, List.nodup_cons, List.mem_map] at hnd
      cases hP : (a.id == cid) with
      | true =>
          have hsome := (List.find?_cons_of_pos t hP).symm.trans hfind
          have hold : a = old := by simpa using hsome
          subst hold
          have hacid : a.id = cid := by simpa using hP
          have ht : ∀ x ∈ t, (x.id == cid) = false := by
            intro x hx
            have hxne : x.id ≠ a.id := by
              intro hEq
              exact hnd.1 ⟨x, hx, hEq⟩
            simp [hacid ▸ hxne]
          rw [List.map_cons, if_pos hP, map_guard_eq_self ht]
          simp only [List.countP_cons]
          push_cast
          ring
      | false =>
          rw [List.find?_cons_of_neg t (by simp [hP])] at hfind
          have ih2 := ih hnd.2 hfind
          rw [List.map_cons, if_neg (by simp [hP])]
          simp only [List.countP_cons]
          push_cast
          push_cast at ih2
          rw [ih2]
          ring

/-- Effect on `countP` of deleting the unique row carrying a given id. -/
theorem countP_filter_outRow {l : List CafeRow} {cid : Nat} {old : CafeRow}
    (p : CafeRow → Bool)
    (hnd : (l.map (fun c => c.id)).Nodup)
    (hfind : l.find? (fun c => c.id == cid) = some old) :
    ((l.filter (fun c => !(c.id == cid))).countP p : Int)
      = (l.countP p : Int) - (if p old then 1 else 0) := by
  induction l with
  | nil => simp at hfind
  | cons a t ih =>
      simp only [List.map_cons, List.nodup_cons, List.mem_map] at hnd
      cases hP : (a.id == cid) with
      | true =>
          have hsome := (List.find?_cons_of_pos t hP).symm.trans hfind
          have hold : a = old := by simpa using hsome
          subst hold
          have hacid : a.id = cid := by simpa using hP
          have ht : ∀ x ∈ t, (x.id == cid) = false := by
            intro x hx
            have hxne : x.id ≠ a.id := by
              intro hEq
              exact hnd.1 ⟨x, hx, hEq⟩
            simp [hacid ▸ hxne]
          rw [List.filter_cons_of_neg (by simp [hP]), filter_out_eq_self ht]
          simp only [List.countP_cons]
          push_cast
          ring
      | false =>
          rw [List.find?_cons_of_neg t (by simp [hP])] at hfind
          have ih2 := ih hnd.2 hfind
          rw [List.filter_cons_of_pos (by simp [hP])]
          simp only [List.countP_cons]
          push_cast
          push_cast at ih2
          rw [ih2]
          ring

/-! ### Structural lemmas about the rating recompute -/

theorem ratingStatsRow_id (active : List ReviewRow) (c : CafeRow) :
    (ratingStatsRow active c).id = c.id := rfl

theorem ratingStatsRow_idem (active : List ReviewRow) (c : CafeRow) :
    ratingStatsRow active (ratingStatsRow active c) = ratingStatsRow active c := rfl

/-- The recompute succeeds exactly when the cafe's row exists, and then
overwrites the six summary columns of that row and nothing else. -/
theorem update_rating_stats_ok {db : DB} {cafeId : Nat}
    (h : db.cafes.any (fun c => c.id == cafeId) = true) :
    update_rating_stats db cafeId
      = Except.ok { db with cafes := db.cafes.map (fun c =>
          if c.id == cafeId then ratingStatsRow (activeReviewsOf db cafeId) c
          else c) } := by
  unfold update_rating_stats
  simp [h]

theorem update_rating_stats_err {db : DB} {cafeId : Nat}
    (h : db.cafes.any (fun c => c.id == cafeId) = false) :
    update_rating_stats db cafeId = Except.error DbError.saveNoRowsUpdated := by
  unfold update_rating_stats
  simp [h]

/-- An id-preserving rewrite of the cafe rows does not change which cafe ids
the table contains. -/
theorem any_id_map (l : List CafeRow) (cid : Nat) (f : CafeRow → CafeRow)
    (hf : ∀ c, (f c).id = c.id) :
    (l.map f).any (fun c => c.id == cid) = l.any (fun c => c.id == cid) := by
  induction l with
  | nil => rfl
  | cons a t ih => simp [hf a, ih]

theorem sqlAvg_getD_eq_specMean (vals : List Nat) :
    (sqlAvg vals).getD 0 = specMean (vals.map (fun x : Nat => (x : ℚ))) := by
  cases vals with
  | nil => simp [sqlAvg, specMean]
  | cons v t =>
      show (((v :: t).map (fun x : Nat => (x : ℚ))).sum / (((v :: t).length : Nat) : ℚ))
          = specMean ((v :: t).map (fun x : Nat => (x : ℚ)))
      unfold specMean
      rw [List.length_map]
      rw [if_neg (by simp)]

/-! ### Structural lemmas about the cafe mutations and the location counter -/

theorem createCafe_cafes (db : DB) (row : CafeRow) :
    (createCafe db row).cafes = row :: db.cafes := by
  unfold createCafe
  split <;> rfl

theorem createCafe_reviews (db : DB) (row : CafeRow) :
    (createCafe db row).reviews = db.reviews := by
  unfold createCafe
  split <;> rfl

theorem createCafe_locations (db : DB) (row : CafeRow) :
    (createCafe db row).locations
      = db.locations.map (fun L =>
          { L with cafe_count := L.cafe_count
              + (if row.is_active && (L.id == row.locationId) then (1 : Int) else 0) }) := by
  unfold createCafe update_location_cafe_count
  cases hA : row.is_active with
  | true =>
      simp only [if_pos]
      apply List.map_congr_left
      intro L hL
      obtain ⟨lid, cnt⟩ := L
      by_cases h1 : lid = row.locationId <;> simp [h1]
  | false =>
      simp only [Bool.false_eq_true, if_neg, not_false_eq_true]
      have hid : ∀ L ∈ db.locations,
          (fun L : LocationRow =>
            { L with cafe_count := L.cafe_count
                + (if false && (L.id == row.locationId) then (1 : Int) else 0) }) L
            = id L := by
        intro L hL
        obtain ⟨lid, cnt⟩ := L
        simp
      rw [List.map_congr_left hid, List.map_id]

theorem updateCafe_cafes {db : DB} {cid nl : Nat} {na : Bool} {old : CafeRow}
    (hfind : db.cafes.find? (fun c => c.id == cid) = some old) :
    (updateCafe db cid nl na).cafes
      = db.cafes.map (fun c =>
          if c.id == cid then { old with locationId := nl, is_active := na } else c) := by
  unfold updateCafe
  rw [hfind]
  dsimp only
  split_ifs <;> rfl

theorem updateCafe_reviews {db : DB} {cid nl : Nat} {na : Bool} {old : CafeRow}
    (hfind : db.cafes.find? (fun c => c.id == cid) = some old) :
    (updateCafe db cid nl na).reviews = db.reviews := by
  unfold updateCafe
  rw [hfind]
  dsimp only
  split_ifs <;> rfl

/-- Net effect of saving an existing cafe on every location row: the new
location gains 1 when the cafe ends up active there, the old location loses 1
when the cafe was active there, covering all three signal branches. -/
theorem updateCafe_locations {db : DB} {cid nl : Nat} {na : Bool} {old : CafeRow}
    (hfind : db.cafes.find? (fun c => c.id == cid) = some old) :
    (updateCafe db cid nl na).locations
      = db.locations.map (fun L =>
          { L with cafe_count := L.cafe_count
              + ((if na && (L.id == nl) then (1 : Int) else 0)
                 - (if old.is_active && (L.id == old.locationId) then (1 : Int) else 0)) }) := by
  unfold updateCafe
  rw [hfind]
  dsimp only
  by_cases hl : old.locationId = nl
  · rw [if_neg (by simp [hl])]
    by_cases ha : old.is_active = na
    · rw [if_neg (by simp [ha])]
      have hid : ∀ L ∈ db.locations,
          (fun L : LocationRow =>
            { L with cafe_count := L.cafe_count
                + ((if na && (L.id == nl) then (1 : Int) else 0)
                   - (if old.is_active && (L.id == old.locationId) then (1 : Int) else 0)) }) L
            = id L := by
        intro L hL
        obtain ⟨lid, cnt⟩ := L
        simp [hl, ha]
      show db.locations = _
      rw [List.map_congr_left hid, List.map_id]
    · rw [if_pos (by simp [ha])]
      unfold update_location_cafe_count
      apply List.map_congr_left
      intro L hL
      obtain ⟨lid, cnt⟩ := L
      cases hna : na with
      | true =>
          have hoa : old.is_active = false := by
            cases h : old.is_active
            · rfl
            · exact absurd (h.trans hna.symm) ha
          by_cases h1 : lid = nl <;> simp [h1, hl, hoa, beq_iff_eq]
      | false =>
          have hoa : old.is_active = true := by
            cases h : old.is_active
            · exact absurd (h.trans hna.symm) ha
            · rfl
          by_cases h1 : lid = nl <;> simp [h1, hl, hoa, beq_iff_eq]
  · rw [if_pos (by simp [hl])]
    dsimp only
    by_cases hoa : old.is_active = true
    · rw [if_pos hoa]
      by_cases hna : na = true
      · rw [if_pos hna]
        unfold update_location_cafe_count
        rw [List.map_map]
        apply List.map_congr_left
        intro L hL
        obtain ⟨lid, cnt⟩ := L
        simp only [Function.comp]
        by_cases h1 : lid = old.locationId <;> by_cases h2 : lid = nl <;>
          simp [h1, h2, hl, Ne.symm hl, hoa, hna, beq_iff_eq]
      · rw [if_neg hna]
        rw [Bool.not_eq_true] at hna
        unfold update_location_cafe_count
        apply List.map_congr_left
        intro L hL
        obtain ⟨lid, cnt⟩ := L
        by_cases h1 : lid = old.locationId <;> simp [h1, hl, hoa, hna, beq_iff_eq]
    · rw [if_neg hoa]
      rw [Bool.not_eq_true] at hoa
      by_cases hna : na = true
      · rw [if_pos hna]
        unfold update_location_cafe_count
        apply List.map_congr_left
        intro L hL
        obtain ⟨lid, cnt⟩ := L
        by_cases h2 : lid = nl <;> simp [h2, hl, hoa, hna, beq_iff_eq]
      · rw [if_neg hna]
        rw [Bool.not_eq_true] at hna
        have hid : ∀ L ∈ db.locations,
            (fun L : LocationRow =>
              { L with cafe_count := L.cafe_count
                  + ((if na && (L.id == nl) then (1 : Int) else 0)
                     - (if old.is_active && (L.id == old.locationId) then (1 : Int) else 0)) }) L
              = id L := by
          intro L hL
          obtain ⟨lid, cnt⟩ := L
          simp [hoa, hna]
        show db.locations = _
        rw [List.map_congr_left hid, List.map_id]

theorem deleteCafe_cafes {db : DB} {cid : Nat} {old : CafeRow}
    (hfind : db.cafes.find? (fun c => c.id == cid) = some old) :
    (deleteCafe db cid).cafes = db.cafes.filter (fun c => !(c.id == cid)) := by
  unfold deleteCafe
  rw [hfind]
  dsimp only
  split_ifs <;> rfl

theorem deleteCafe_locations {db : DB} {cid : Nat} {old : CafeRow}
    (hfind : db.cafes.find? (fun c => c.id == cid) = some old) :
    (deleteCafe db cid).locations
      = db.locations.map (fun L =>
          { L with cafe_count := L.cafe_count
              - (if old.is_active && (L.id == old.locationId) then (1 : Int) else 0) }) := by
  unfold deleteCafe
  rw [hfind]
  dsimp only
  by_cases hoa : old.is_active = true
  · rw [if_pos hoa]
    unfold update_location_cafe_count
    apply List.map_congr_left
    intro L hL
    obtain ⟨lid, cnt⟩ := L
    by_cases h1 : lid = old.locationId <;> simp [h1, hoa, beq_iff_eq] <;> omega
  · rw [if_neg hoa]
    rw [Bool.not_eq_true] at hoa
    have hid : ∀ L ∈ db.locations,
        (fun L : LocationRow =>
          { L with cafe_count := L.cafe_count
              - (if old.is_active && (L.id == old.locationId) then (1 : Int) else 0) }) L
          = id L := by
      intro L hL
      obtain ⟨lid, cnt⟩ := L
      simp [hoa]
    show db.locations = _
    rw [List.map_congr_left hid, List.map_id]

theorem beq_nat_comm (x y : Nat) : (x == y) = (y == x) := by
  by_cases h : x = y
  · simp [h]
  · simp [h, Ne.symm h]

theorem activeCafeCount_createCafe (db : DB) (row : CafeRow) (lid : Nat) :
    activeCafeCount (createCafe db row) lid
      = activeCafeCount db lid
        + (if row.is_active && (lid == row.locationId) then (1 : Int) else 0) := by
  unfold activeCafeCount
  rw [createCafe_cafes, List.countP_cons]
  push_cast
  rw [beq_nat_comm lid row.locationId]

theorem activeCafeCount_updateCafe {db : DB} {cid nl : Nat} {na : Bool}
    {old : CafeRow} (hnd : CafeIdsNodup db)
    (hfind : db.cafes.find? (fun c => c.id == cid) = some old) (lid : Nat) :
    activeCafeCount (updateCafe db cid nl na) lid
      = activeCafeCount db lid
        + ((if na && (lid == nl) then (1 : Int) else 0)
           - (if old.is_active && (lid == old.locationId) then (1 : Int) else 0)) := by
  unfold activeCafeCount
  rw [updateCafe_cafes hfind]
  rw [countP_map_replaceRow (fun c => c.is_active && c.locationId == lid) hnd hfind]
  rw [beq_nat_comm lid nl, beq_nat_comm lid old.locationId]
  ring

theorem activeCafeCount_deleteCafe {db : DB} {cid : Nat}
    {old : CafeRow} (hnd : CafeIdsNodup db)
    (hfind : db.cafes.find? (fun c => c.id == cid) = some old) (lid : Nat) :
    activeCafeCount (deleteCafe db cid) lid
      = activeCafeCount db lid
        - (if old.is_active && (lid == old.locationId) then (1 : Int) else 0) := by
  unfold activeCafeCount
  rw [deleteCafe_cafes hfind]
  rw [countP_filter_outRow (fun c => c.is_active && c.locationId == lid) hnd hfind]
  rw [beq_nat_comm lid old.locationId]

/-! ### Preservation of the location-count invariant -/

theorem inv_createCafe (db : DB) (row : CafeRow)
    (hInv : LocationCountInv db) : LocationCountInv (createCafe db row) := by
  intro L' hL'
  rw [createCafe_locations] at hL'
  obtain ⟨L, hL, rfl⟩ := List.mem_map.mp hL'
  show _ = activeCafeCount (createCafe db row) L.id
  rw [activeCafeCount_createCafe, ← hInv L hL]

theorem inv_updateCafe (db : DB) (cid nl : Nat) (na : Bool)
    (hnd : CafeIdsNodup db) (hInv : LocationCountInv db) :
    LocationCountInv (updateCafe db cid nl na) := by
  cases hfind : db.cafes.find? (fun c => c.id == cid) with
  | none =>
      have heq : updateCafe db cid nl na
          = createCafe db
              { id := cid, locationId := nl, is_active := na,
                rating_avg := 0, rating_wifi := 0, rating_power := 0,
                rating_noise := 0, rating_coffee := 0, rating_count := 0 } := by
        unfold updateCafe
        rw [hfind]
      rw [heq]
      exact inv_createCafe _ _ hInv
  | some old =>
      intro L' hL'
      rw [updateCafe_locations hfind] at hL'
      obtain ⟨L, hL, rfl⟩ := List.mem_map.mp hL'
      show _ = activeCafeCount (updateCafe db cid nl na) L.id
      rw [activeCafeCount_updateCafe hnd hfind, ← hInv L hL]

theorem inv_deleteCafe (db : DB) (cid : Nat)
    (hnd : CafeIdsNodup db) (hInv : LocationCountInv db) :
    LocationCountInv (deleteCafe db cid) := by
  cases hfind : db.cafes.find? (fun c => c.id == cid) with
  | none =>
      have heq : deleteCafe db cid = db := by
        unfold deleteCafe
        rw [hfind]
      rw [heq]
      exact hInv
  | some old =>
      intro L' hL'
      rw [deleteCafe_locations hfind] at hL'
      obtain ⟨L, hL, rfl⟩ := List.mem_map.mp hL'
      show _ = activeCafeCount (deleteCafe db cid) L.id
      rw [activeCafeCount_deleteCafe hnd hfind, ← hInv L hL]

/-! ### Concrete scenario states used by the claims -/

/-- Scenario location (spec.md section 8): starts with `cafe_count = 0`. -/
def scnLoc : LocationRow := { id := 1, cafe_count := 0 }

/-- Scenario cafe: active, at location 1, summary fields at their defaults. -/
def scnCafe : CafeRow :=
  { id := 10, locationId := 1, is_active := true,
    rating_avg := 0, rating_wifi := 0, rating_power := 0,
    rating_noise := 0, rating_coffee := 0, rating_count := 0 }

def scnDb0 : DB := { locations := [scnLoc], cafes := [], reviews := [] }

/-- Create the active cafe. -/
def scnDb1 : DB := applyCafeMut scnDb0 (CafeMut.create scnCafe)

/-- Deactivate it (same location). -/
def scnDb2 : DB := applyCafeMut scnDb1 (CafeMut.update 10 1 false)

/-- Reactivate it. -/
def scnDb3 : DB := applyCafeMut scnDb2 (CafeMut.update 10 1 true)

/-- Delete it. -/
def scnDb4 : DB := applyCafeMut scnDb3 (CafeMut.delete 10)

/-- Concrete two-location state for the move scenarios: an active cafe (id 20)
at location 1, counts consistent. -/
def mvLoc1 : LocationRow := { id := 1, cafe_count := 1 }

def mvLoc2 : LocationRow := { id := 2, cafe_count := 0 }

def mvCafe : CafeRow :=
  { id := 20, locationId := 1, is_active := true,
    rating_avg := 0, rating_wifi := 0, rating_power := 0,
    rating_noise := 0, rating_coffee := 0, rating_count := 0 }

def mvDb : DB := { locations := [mvLoc1, mvLoc2], cafes := [mvCafe], reviews := [] }

/-- An inactive cafe at location 1, counts consistent (inactive cafes are not
counted). -/
def mvCafeInactive : CafeRow :=
  { id := 20, locationId := 1, is_active := false,
    rating_avg := 0, rating_wifi := 0, rating_power := 0,
    rating_noise := 0, rating_coffee := 0, rating_count := 0 }

def mvDbInactive : DB :=
  { locations := [{ id := 1, cafe_count := 0 }, { id := 2, cafe_count := 0 }],
    cafes := [mvCafeInactive], reviews := [] }

/-- C2: after any cafe mutation (create / update, which covers activate,
deactivate and moves / delete) together with its signal-handler counter
adjustment, every location's `cafe_count` again equals the number of active
cafes referencing it; and the concrete lifecycle scenario create → deactivate
→ reactivate → delete runs the counter through 1, 0, 1, 0. -/
theorem c2_location_cafe_count_invariant :
    (∀ (db : DB) (m : CafeMut), CafeIdsNodup db → LocationCountInv db →
        LocationCountInv (applyCafeMut db m))
    ∧ scnDb1.locations.map (fun L => L.cafe_count) = [1]
    ∧ scnDb2.locations.map (fun L => L.cafe_count) = [0]
    ∧ scnDb3.locations.map (fun L => L.cafe_count) = [1]
    ∧ scnDb4.locations.map (fun L => L.cafe_count) = [0] := by
  refine ⟨?_, by decide, by decide, by decide, by decide⟩
  intro db m hnd hInv
  cases m with
  | create row => exact inv_createCafe db row hInv
  | update cid nl na => exact inv_updateCafe db cid nl na hnd hInv
  | delete cid => exact inv_deleteCafe db cid hnd hInv

theorem c2_location_cafe_count_invariant_witness :
    LocationCountInv (applyCafeMut scnDb0 (CafeMut.create scnCafe)) :=
  c2_location_cafe_count_invariant.1 scnDb0 (CafeMut.create scnCafe)
    (by decide) (by decide)

/-- C3: updating a cafe whose `location_id` changes from `l1` to `l2` adjusts
exactly the two location rows: `l1` loses 1 precisely when the cafe was active
before the write, `l2` gains 1 precisely when the cafe is active after the
write, and every other location row is untouched. -/
theorem c3_location_move_adjusts_counts {db : DB} {cid l1 l2 : Nat} {na : Bool}
    {old : CafeRow}
    (hfind : db.cafes.find? (fun c => c.id == cid) = some old)
    (hold : old.locationId = l1) (hne : l1 ≠ l2) :
    (updateCafe db cid l2 na).locations
      = db.locations.map (fun L =>
          if L.id = l1 then
            { L with cafe_count := L.cafe_count - (if old.is_active then 1 else 0) }
          else if L.id = l2 then
            { L with cafe_count := L.cafe_count + (if na then 1 else 0) }
          else L) := by
  rw [updateCafe_locations hfind, hold]
  apply List.map_congr_left
  intro L hL
  obtain ⟨lid, cnt⟩ := L
  by_cases h1 : lid = l1
  · subst h1
    simp [hne, Ne.symm hne, beq_iff_eq]
    cases old.is_active <;> simp
    omega
  · by_cases h2 : lid = l2
    · subst h2
      simp [h1, Ne.symm hne, beq_iff_eq]
    · simp [h1, h2, beq_iff_eq]

/-- Witness for C3: moving the active cafe 20 from location 1 to location 2
in the concrete two-location state. -/
theorem c3_location_move_adjusts_counts_witness :
    (updateCafe mvDb 20 2 true).locations
      = mvDb.locations.map (fun L =>
          if L.id = 1 then
            { L with cafe_count := L.cafe_count - (if mvCafe.is_active then 1 else 0) }
          else if L.id = 2 then
            { L with cafe_count := L.cafe_count + (if (true : Bool) then 1 else 0) }
          else L) :=
  c3_location_move_adjusts_counts (by decide) (by decide) (by decide)

/-- C7: moving an inactive cafe between two locations while it stays inactive
leaves every location row — in particular both endpoints — unchanged. -/
theorem c7_inactive_move_counts_unchanged {db : DB} {cid l1 l2 : Nat}
    {old : CafeRow}
    (hfind : db.cafes.find? (fun c => c.id == cid) = some old)
    (hoa : old.is_active = false)
    (hold : old.locationId = l1) (hne : l1 ≠ l2) :
    (updateCafe db cid l2 false).locations = db.locations := by
  rw [updateCafe_locations hfind]
  have hid : ∀ L ∈ db.locations,
      (fun L : LocationRow =>
        { L with cafe_count := L.cafe_count
            + ((if false && (L.id == l2) then (1 : Int) else 0)
               - (if old.is_active && (L.id == old.locationId) then (1 : Int) else 0)) }) L
        = id L := by
    intro L hL
    obtain ⟨lid, cnt⟩ := L
    simp [hoa]
  rw [List.map_congr_left hid, List.map_id]

/-- Witness for C7: moving the inactive cafe 20 from location 1 to location 2
leaves both counters at 0. -/
theorem c7_inactive_move_counts_unchanged_witness :
    (updateCafe mvDbInactive 20 2 false).locations = mvDbInactive.locations :=
  @c7_inactive_move_counts_unchanged mvDbInactive 20 1 2 mvCafeInactive
    (by decide) (by decide) (by decide) (by decide)

/-- Concrete ratings state: cafe 10 with three active reviews rated
overall 5, 4, 2; wifi set on the first two (5 and 4). -/
def rvwCafe : CafeRow :=
  { id := 10, locationId := 1, is_active := true,
    rating_avg := 0, rating_wifi := 0, rating_power := 0,
    rating_noise := 0, rating_coffee := 0, rating_count := 0 }

def rvwDb : DB :=
  { locations := [{ id := 1, cafe_count := 1 }],
    cafes := [rvwCafe],
    reviews :=
      [ { id := 1, cafeId := 10, userId := 100, rating_overall := 5,
          rating_wifi := some 5, rating_power := none, rating_noise := none,
          rating_coffee := none, is_active := true },
        { id := 2, cafeId := 10, userId := 101, rating_overall := 4,
          rating_wifi := some 4, rating_power := none, rating_noise := none,
          rating_coffee := none, is_active := true },
        { id := 3, cafeId := 10, userId := 102, rating_overall := 2,
          rating_wifi := none, rating_power := none, rating_noise := none,
          rating_coffee := none, is_active := true } ] }

/-- C1: when the cafe row exists, `update_rating_stats` succeeds, touches only
the cafe table, and afterwards the cafe's `rating_avg` is the arithmetic mean
of `rating_overall` over its active reviews (0 when there are none), each
dimension average is the mean over the active reviews where that dimension is
set (0 when none sets it), and `rating_count` is the number of active
reviews. -/
theorem c1_recompute_matches_spec_means (db : DB) (cafeId : Nat)
    (h : db.cafes.any (fun c => c.id == cafeId) = true) :
    ∃ db', update_rating_stats db cafeId = Except.ok db'
      ∧ db'.locations = db.locations
      ∧ db'.reviews = db.reviews
      ∧ (∃ c' ∈ db'.cafes, c'.id = cafeId)
      ∧ ∀ c' ∈ db'.cafes, c'.id = cafeId →
          c'.rating_avg
              = specMean ((activeReviewsOf db cafeId).map (fun r => (r.rating_overall : ℚ)))
          ∧ c'.rating_wifi
              = specMean (((activeReviewsOf db cafeId).filterMap (fun r => r.rating_wifi)).map
                  (fun x : Nat => (x : ℚ)))
          ∧ c'.rating_power
              = specMean (((activeReviewsOf db cafeId).filterMap (fun r => r.rating_power)).map
                  (fun x : Nat => (x : ℚ)))
          ∧ c'.rating_noise
              = specMean (((activeReviewsOf db cafeId).filterMap (fun r => r.rating_noise)).map
                  (fun x : Nat => (x : ℚ)))
          ∧ c'.rating_coffee
              = specMean (((activeReviewsOf db cafeId).filterMap (fun r => r.rating_coffee)).map
                  (fun x : Nat => (x : ℚ)))
          ∧ c'.rating_count = (activeReviewsOf db cafeId).length := by
  refine ⟨_, update_rating_stats_ok h, rfl, rfl, ?_, ?_⟩
  · obtain ⟨c, hc, hcid⟩ := List.any_eq_true.mp h
    refine ⟨(fun c => if c.id == cafeId then
        ratingStatsRow (activeReviewsOf db cafeId) c else c) c,
      List.mem_map.mpr ⟨c, hc, rfl⟩, ?_⟩
    simp only [hcid, if_pos]
    rw [ratingStatsRow_id]
    exact beq_iff_eq.mp hcid
  · intro c' hc' hid
    obtain ⟨c, hc, rfl⟩ := List.mem_map.mp hc'
    by_cases hcd : (c.id == cafeId) = true
    · rw [if_pos hcd] at hid ⊢
      refine ⟨?_, ?_, ?_, ?_, ?_, rfl⟩ <;>
        simp [ratingStatsRow, sqlAvg_getD_eq_specMean, List.map_map, Function.comp_def]
    · rw [if_neg hcd] at hid
      exact absurd hid (by simpa using hcd)

/-- Witness for C1 at the concrete three-review state. -/
theorem c1_recompute_matches_spec_means_witness :
    ∃ db', update_rating_stats rvwDb 10 = Except.ok db'
      ∧ db'.locations = rvwDb.locations
      ∧ db'.reviews = rvwDb.reviews
      ∧ (∃ c' ∈ db'.cafes, c'.id = 10)
      ∧ ∀ c' ∈ db'.cafes, c'.id = 10 →
          c'.rating_avg
              = specMean ((activeReviewsOf rvwDb 10).map (fun r => (r.rating_overall : ℚ)))
          ∧ c'.rating_wifi
              = specMean (((activeReviewsOf rvwDb 10).filterMap (fun r => r.rating_wifi)).map
                  (fun x : Nat => (x : ℚ)))
          ∧ c'.rating_power
              = specMean (((activeReviewsOf rvwDb 10).filterMap (fun r => r.rating_power)).map
                  (fun x : Nat => (x : ℚ)))
          ∧ c'.rating_noise
              = specMean (((activeReviewsOf rvwDb 10).filterMap (fun r => r.rating_noise)).map
                  (fun x : Nat => (x : ℚ)))
          ∧ c'.rating_coffee
              = specMean (((activeReviewsOf rvwDb 10).filterMap (fun r => r.rating_coffee)).map
                  (fun x : Nat => (x : ℚ)))
          ∧ c'.rating_count = (activeReviewsOf rvwDb 10).length :=
  c1_recompute_matches_spec_means rvwDb 10 (by decide)

/-- Evaluation rule for the 2-decimal quantization: if `n ≤ x*100 + 1/2 < n+1`
then the stored value is `n/100`. -/
theorem quantize2_eq (x : ℚ) (n : ℤ) (h1 : (n : ℚ) ≤ x * 100 + 1/2)
    (h2 : x * 100 + 1/2 < (n : ℚ) + 1) : quantize2 x = (n : ℚ)/100 := by
  unfold quantize2
  have ha : n ≤ (x * 100 + 1/2).floor := Rat.le_floor.mpr h1
  have hb : ¬ (n + 1 ≤ (x * 100 + 1/2).floor) := by
    intro hcon
    have hle : ((n + 1 : ℤ) : ℚ) ≤ x * 100 + 1/2 := Rat.le_floor.mp hcon
    push_cast at hle
    exact absurd hle (not_le.mpr h2)
  have hf : (x * 100 + 1/2).floor = n := by omega
  rw [hf]

/-- C5: for the cafe whose active reviews carry overall ratings 5, 4, 2 and
wifi ratings on exactly two of them (5 and 4), the recompute stores
`rating_avg = 11/3` (whose 2-decimal column value is 3.67), `rating_wifi =
4.5`, `rating_count = 3`, and both stored averages are representable as
`n/100` with `0 ≤ n ≤ 500`, i.e. in a 3-digit 2-fraction-digit decimal
clamped to `[0, 5]`. -/
theorem c5_rating_scenario :
    ∃ db', update_rating_stats rvwDb 10 = Except.ok db'
      ∧ ∀ c' ∈ db'.cafes, c'.id = 10 →
          c'.rating_avg = 11/3
          ∧ quantize2 c'.rating_avg = 367/100
          ∧ c'.rating_wifi = 9/2
          ∧ quantize2 c'.rating_wifi = 9/2
          ∧ c'.rating_count = 3
          ∧ (∃ n : ℤ, quantize2 c'.rating_avg = (n : ℚ)/100 ∧ 0 ≤ n ∧ n ≤ 500)
          ∧ (∃ n : ℤ, quantize2 c'.rating_wifi = (n : ℚ)/100 ∧ 0 ≤ n ∧ n ≤ 500) := by
  refine ⟨_, rfl, ?_⟩
  intro c' hc' hid
  have hmem : c' = ratingStatsRow (activeReviewsOf rvwDb 10) rvwCafe := by
    simpa [rvwDb, rvwCafe] using hc'
  subst hmem
  have havg : (ratingStatsRow (activeReviewsOf rvwDb 10) rvwCafe).rating_avg = 11/3 := by
    show (sqlAvg ((activeReviewsOf rvwDb 10).map (fun r => r.rating_overall))).getD 0 = 11/3
    norm_num [activeReviewsOf, rvwDb, sqlAvg, List.filterMap_cons, List.filterMap_nil]
  have hwifi : (ratingStatsRow (activeReviewsOf rvwDb 10) rvwCafe).rating_wifi = 9/2 := by
    show (sqlAvg ((activeReviewsOf rvwDb 10).filterMap (fun r => r.rating_wifi))).getD 0 = 9/2
    norm_num [activeReviewsOf, rvwDb, sqlAvg, List.filterMap_cons, List.filterMap_nil]
  have hq1 : quantize2 (11/3 : ℚ) = (367 : ℤ)/100 :=
    quantize2_eq _ 367 (by norm_num) (by norm_num)
  have hq2 : quantize2 (9/2 : ℚ) = 9/2 := by
    rw [quantize2_eq _ 450 (by norm_num) (by norm_num)]
    norm_num
  refine ⟨havg, ?_, hwifi, ?_, rfl, ⟨367, ?_, by norm_num, by norm_num⟩,
    ⟨450, ?_, by norm_num, by norm_num⟩⟩
  · rw [havg]
    rw [hq1]
    norm_num
  · rw [hwifi]
    exact hq2
  · rw [havg]
    exact hq1
  · rw [hwifi, hq2]
    norm_num

/-- C10: the recompute is idempotent — running `update_rating_stats` twice in
succession produces exactly the state of running it once, because the six
summary fields are recomputed from scratch from the unchanged review set. -/
theorem c10_recompute_idempotent (db : DB) (cafeId : Nat) :
    Except.bind (update_rating_stats db cafeId) (fun d => update_rating_stats d cafeId)
      = update_rating_stats db cafeId := by
  cases h : db.cafes.any (fun c => c.id == cafeId) with
  | false => rw [update_rating_stats_err h]; rfl
  | true =>
      rw [update_rating_stats_ok h]
      show update_rating_stats _ cafeId = _
      have hidp : ∀ c : CafeRow,
          ((fun c => if c.id == cafeId then
              ratingStatsRow (activeReviewsOf db cafeId) c else c) c).id = c.id := by
        intro c
        dsimp only
        by_cases hcd : (c.id == cafeId) = true
        · rw [if_pos hcd, ratingStatsRow_id]
        · rw [if_neg hcd]
      have hX : ((db.cafes.map (fun c => if c.id == cafeId then
          ratingStatsRow (activeReviewsOf db cafeId) c else c)).any
            (fun c => c.id == cafeId)) = true := by
        rw [any_id_map _ _ _ hidp]
        exact h
      rw [update_rating_stats_ok hX]
      refine congrArg Except.ok ?_
      simp only [DB.mk.injEq]
      refine ⟨trivial, ?_, trivial⟩
      rw [List.map_map]
      apply List.map_congr_left
      intro c hc
      dsimp only [Function.comp]
      by_cases hcd : (c.id == cafeId) = true
      · rw [if_pos hcd]
        rw [if_pos (by rw [ratingStatsRow_id]; exact hcd)]
        exact ratingStatsRow_idem _ _
      · rw [if_neg hcd, if_neg hcd]

theorem update_rating_stats_reviews {db d : DB} {cafeId : Nat}
    (h : update_rating_stats db cafeId = Except.ok d) : d.reviews = db.reviews := by
  unfold update_rating_stats at h
  by_cases ha : (db.cafes.any (fun c => c.id == cafeId)) = true
  · rw [if_pos ha] at h
    simp only [Except.ok.injEq] at h
    rw [← h]
  · rw [if_neg ha] at h
    exact absurd h (by simp)

/-- Payload used by the concrete review-creation witnesses. -/
def inp0 : ReviewInput :=
  { rating_overall := 3, rating_wifi := none, rating_power := none,
    rating_noise := none, rating_coffee := none }

/-- The ratings state with no reviews at all (cafe 10 still present). -/
def noRevDb : DB := { rvwDb with reviews := [] }

/-- C8: a second review for the same (user, cafe) pair is rejected by the
serializer's existence check as a validation error — before the insert and
before any recompute — and creation preserves "at most one review row per
(user, cafe) pair". -/
theorem c8_duplicate_review_rejected :
    (∀ (db : DB) (nid uid cafeId : Nat) (inp : ReviewInput),
        (db.reviews.any (fun r => r.userId == uid && r.cafeId == cafeId)) = true →
        reviewCreate db nid uid cafeId inp = Except.error ApiError.alreadyReviewed)
    ∧ (∀ (db : DB) (nid uid cafeId : Nat) (inp : ReviewInput) (db' : DB),
        (∀ u c : Nat,
          db.reviews.countP (fun r => r.userId == u && r.cafeId == c) ≤ 1) →
        reviewCreate db nid uid cafeId inp = Except.ok db' →
        ∀ u c : Nat,
          db'.reviews.countP (fun r => r.userId == u && r.cafeId == c) ≤ 1) := by
  constructor
  · intro db nid uid cafeId inp h
    unfold reviewCreate
    rw [if_pos h]
  · intro db nid uid cafeId inp db' hU hok u c
    unfold reviewCreate at hok
    by_cases hdup : (db.reviews.any (fun r => r.userId == uid && r.cafeId == cafeId)) = true
    · rw [if_pos hdup] at hok
      exact absurd hok (by simp)
    · rw [if_neg hdup] at hok
      rw [Bool.not_eq_true] at hdup
      split at hok
      · rename_i db2 heq
        simp only [Except.ok.injEq] at hok
        subst hok
        have hrev : db2.reviews
            = db.reviews ++ [mkReviewRow nid uid cafeId inp] :=
          update_rating_stats_reviews heq
        rw [hrev, List.countP_append]
        by_cases h1 : uid = u
        · by_cases h2 : cafeId = c
          · subst h1
            subst h2
            have hz : db.reviews.countP
                (fun r => r.userId == uid && r.cafeId == cafeId) = 0 := by
              rw [List.countP_eq_zero]
              intro a ha hpa
              have hcontra : db.reviews.any
                  (fun r => r.userId == uid && r.cafeId == cafeId) = true :=
                List.any_eq_true.mpr ⟨a, ha, hpa⟩
              rw [hdup] at hcontra
              cases hcontra
            rw [hz]
            simp [mkReviewRow]
          · have hz2 : (List.countP (fun r => r.userId == u && r.cafeId == c)
                [mkReviewRow nid uid cafeId inp]) = 0 := by
              simp [mkReviewRow, h2]
            rw [hz2]
            simpa using hU u c
        · have hz2 : (List.countP (fun r => r.userId == u && r.cafeId == c)
              [mkReviewRow nid uid cafeId inp]) = 0 := by
            simp [mkReviewRow, h1]
          rw [hz2]
          simpa using hU u c
      · rename_i e heq
        exact absurd hok (by simp)

/-- Witness for C8: user 100 already reviewed cafe 10, so a second attempt is
rejected; creating in a review-free state keeps the pair counts at most 1. -/
theorem c8_duplicate_review_rejected_witness :
    reviewCreate rvwDb 99 100 10 inp0 = Except.error ApiError.alreadyReviewed
    ∧ ∃ db', reviewCreate noRevDb 5 200 10 inp0 = Except.ok db'
        ∧ ∀ u c : Nat,
            db'.reviews.countP (fun r => r.userId == u && r.cafeId == c) ≤ 1 :=
  ⟨c8_duplicate_review_rejected.1 rvwDb 99 100 10 inp0 (by decide),
   ⟨_, rfl, fun u c =>
      c8_duplicate_review_rejected.2 noRevDb 5 200 10 inp0 _
        (fun u' c' => by simp [noRevDb]) rfl u c⟩⟩

/-- C9: the duplicate check `Review.objects.filter(user=user, cafe=cafe)
.exists()` has no `is_active` filter, so even a soft-deleted review row blocks
a replacement review by the same user for the same cafe. -/
theorem c9_soft_deleted_review_still_blocks (db : DB)
    (nid uid cafeId : Nat) (inp : ReviewInput) (r : ReviewRow)
    (hr : r ∈ db.reviews) (hu : r.userId = uid) (hc : r.cafeId = cafeId)
    (hinact : r.is_active = false) :
    reviewCreate db nid uid cafeId inp = Except.error ApiError.alreadyReviewed := by
  have hany : (db.reviews.any (fun x => x.userId == uid && x.cafeId == cafeId)) = true :=
    List.any_eq_true.mpr ⟨r, hr, by simp [hu, hc]⟩
  unfold reviewCreate
  rw [if_pos hany]

/-- The ratings state where user 102 soft-deleted their review of cafe 10. -/
def softDelDb : DB :=
  { rvwDb with reviews := rvwDb.reviews.map (fun x =>
      if x.id == 3 then { x with is_active := false } else x) }

/-- Witness for C9: user 102 soft-deleted their review of cafe 10 and cannot
create a new one. -/
theorem c9_soft_deleted_review_still_blocks_witness :
    reviewCreate softDelDb 99 102 10 inp0 = Except.error ApiError.alreadyReviewed :=
  c9_soft_deleted_review_still_blocks softDelDb 99 102 10 inp0
    { id := 3, cafeId := 10, userId := 102, rating_overall := 2,
      rating_wifi := none, rating_power := none, rating_noise := none,
      rating_coffee := none, is_active := false }
    (by decide) (by decide) (by decide) (by decide)

theorem activeReviewsOf_reviews (db : DB) (cafeId : Nat) :
    activeReviewsOf db cafeId
      = db.reviews.filter (fun r => r.cafeId == cafeId && r.is_active) := rfl

/-- Shape of a successful `destroy`: the review row is flipped inactive and the
cafe row is rewritten (twice) with the stats of its — here empty — active
review set. -/
theorem reviewDestroy_ok {db : DB} {rid : Nat} {r : ReviewRow}
    (hfind : db.reviews.find? (fun x => x.id == rid) = some r)
    (hempty : activeReviewsOf
        { db with reviews := db.reviews.map (fun x =>
            if x.id == rid then { x with is_active := false } else x) }
        r.cafeId = [])
    (hcafe : db.cafes.any (fun c => c.id == r.cafeId) = true) :
    reviewDestroy db rid = Except.ok
      { db with
        reviews := db.reviews.map (fun x =>
          if x.id == rid then { x with is_active := false } else x),
        cafes := ((db.cafes.map (fun c =>
            if c.id == r.cafeId then ratingStatsRow [] c else c)).map (fun c =>
            if c.id == r.cafeId then ratingStatsRow [] c else c)) } := by
  have hidp : ∀ c : CafeRow,
      ((fun c => if c.id == r.cafeId then ratingStatsRow [] c else c) c).id = c.id := by
    intro c
    dsimp only
    by_cases hcd : (c.id == r.cafeId) = true
    · rw [if_pos hcd, ratingStatsRow_id]
    · rw [if_neg hcd]
  have hemptyF : (db.reviews.map (fun x =>
      if x.id == rid then { x with is_active := false } else x)).filter
        (fun x => x.cafeId == r.cafeId && x.is_active) = [] := hempty
  unfold reviewDestroy
  rw [hfind]
  dsimp only
  rw [update_rating_stats_ok (show
      ({ db with reviews := db.reviews.map (fun x =>
          if x.id == rid then { x with is_active := false } else x) } : DB).cafes.any
        (fun c => c.id == r.cafeId) = true from hcafe)]
  rw [hempty]
  dsimp only
  rw [update_rating_stats_ok (show
      ({ db with
          reviews := db.reviews.map (fun x =>
            if x.id == rid then { x with is_active := false } else x),
          cafes := db.cafes.map (fun c =>
            if c.id == r.cafeId then ratingStatsRow [] c else c) } : DB).cafes.any
        (fun c => c.id == r.cafeId) = true from by
      show (db.cafes.map (fun c =>
          if c.id == r.cafeId then ratingStatsRow [] c else c)).any
        (fun c => c.id == r.cafeId) = true
      rw [any_id_map _ _ _ hidp]
      exact hcafe)]
  rw [activeReviewsOf_reviews]
  dsimp only
  rw [hemptyF]

/-- C6: soft-deleting the only active review of a cafe (the `destroy` flow:
flip `is_active` to false, then recompute) drives all five rating fields and
the count of that cafe to exactly 0 while the review row persists (same row
count, the row now inactive). -/
theorem c6_soft_delete_only_review_zeroes {db : DB} {rid : Nat} {r : ReviewRow}
    (hfind : db.reviews.find? (fun x => x.id == rid) = some r)
    (hact : r.is_active = true)
    (honly : ∀ x ∈ db.reviews, x.cafeId = r.cafeId → x.is_active = true → x.id = rid)
    (hcafe : db.cafes.any (fun c => c.id == r.cafeId) = true) :
    ∃ db', reviewDestroy db rid = Except.ok db'
      ∧ (∀ c' ∈ db'.cafes, c'.id = r.cafeId →
          c'.rating_avg = 0 ∧ c'.rating_wifi = 0 ∧ c'.rating_power = 0
          ∧ c'.rating_noise = 0 ∧ c'.rating_coffee = 0 ∧ c'.rating_count = 0)
      ∧ (∃ x ∈ db'.reviews, x.id = rid ∧ x.is_active = false)
      ∧ db'.reviews.length = db.reviews.length := by
  have hrid : (r.id == rid) = true := by
    have h0 := List.find?_some hfind
    simpa using h0
  have hempty : activeReviewsOf
      { db with reviews := db.reviews.map (fun x =>
          if x.id == rid then { x with is_active := false } else x) }
      r.cafeId = [] := by
    show (db.reviews.map (fun x =>
        if x.id == rid then { x with is_active := false } else x)).filter
          (fun x => x.cafeId == r.cafeId && x.is_active) = []
    rw [List.filter_eq_nil_iff]
    intro a ha
    obtain ⟨y, hy, rfl⟩ := List.mem_map.mp ha
    by_cases hyid : (y.id == rid) = true
    · rw [if_pos hyid]
      simp
    · rw [if_neg hyid]
      intro hpa
      have h1 : y.cafeId = r.cafeId := by
        have := (Bool.and_eq_true _ _).mp hpa
        exact beq_iff_eq.mp this.1
      have h2 : y.is_active = true := by
        have := (Bool.and_eq_true _ _).mp hpa
        exact this.2
      exact hyid (by rw [honly y hy h1 h2]; simp)
  refine ⟨_, reviewDestroy_ok hfind hempty hcafe, ?_, ?_, ?_⟩
  · intro c' hc' hid
    obtain ⟨c1, hc1, rfl⟩ := List.mem_map.mp hc'
    obtain ⟨c0, hc0, rfl⟩ := List.mem_map.mp hc1
    by_cases hcd : (c0.id == r.cafeId) = true
    · rw [if_pos hcd]
      rw [if_pos (by rw [ratingStatsRow_id]; exact hcd)]
      exact ⟨rfl, rfl, rfl, rfl, rfl, rfl⟩
    · rw [if_neg hcd] at hid ⊢
      rw [if_neg hcd] at hid
      exact absurd hid (by simpa using hcd)
  · refine ⟨{ r with is_active := false }, ?_, ?_, rfl⟩
    · exact List.mem_map.mpr ⟨r, List.mem_of_find?_eq_some hfind, by rw [if_pos hrid]⟩
    · show r.id = rid
      exact beq_iff_eq.mp hrid
  · exact List.length_map _ _

/-- State with exactly one (active) review for cafe 10. -/
def oneRevDb : DB :=
  { locations := [{ id := 1, cafe_count := 1 }],
    cafes := [rvwCafe],
    reviews :=
      [{ id := 3, cafeId := 10, userId := 102, rating_overall := 2,
         rating_wifi := none, rating_power := none, rating_noise := none,
         rating_coffee := none, is_active := true }] }

/-- Witness for C6 at the one-review state. -/
theorem c6_soft_delete_only_review_zeroes_witness :
    ∃ db', reviewDestroy oneRevDb 3 = Except.ok db'
      ∧ (∀ c' ∈ db'.cafes, c'.id = 10 →
          c'.rating_avg = 0 ∧ c'.rating_wifi = 0 ∧ c'.rating_power = 0
          ∧ c'.rating_noise = 0 ∧ c'.rating_coffee = 0 ∧ c'.rating_count = 0)
      ∧ (∃ x ∈ db'.reviews, x.id = 3 ∧ x.is_active = false)
      ∧ db'.reviews.length = oneRevDb.reviews.length :=
  @c6_soft_delete_only_review_zeroes oneRevDb 3
    { id := 3, cafeId := 10, userId := 102, rating_overall := 2,
      rating_wifi := none, rating_power := none, rating_noise := none,
      rating_coffee := none, is_active := true }
    (by decide) (by decide) (by decide) (by decide)

/-- A review row whose owning cafe row is gone (race with cafe deletion). -/
def orphanDb : DB :=
  { locations := [], cafes := [],
    reviews :=
      [{ id := 1, cafeId := 1, userId := 1, rating_overall := 5,
         rating_wifi := none, rating_power := none, rating_noise := none,
         rating_coffee := none, is_active := true }] }

/-- Counterexample to C4 as stated: with the owning cafe's row gone, the
recompute is not a no-op — `self.save(update_fields=[...])` updates no row and
Django (>= 4.1) raises a `DatabaseError`, which the embedding surfaces as
`DbError.saveNoRowsUpdated`. -/
theorem c4_counterexample :
    update_rating_stats orphanDb 1 = Except.error DbError.saveNoRowsUpdated := rfl

/-- C4 (amended): if the owning cafe row no longer exists when the recompute
runs, `update_rating_stats` raises a database error (save with update_fields
affected no rows) instead of being a silent no-op, and the error propagates to
the triggering review write, which therefore fails too. -/
theorem c4_missing_cafe_raises (db : DB) (cafeId nid uid : Nat) (inp : ReviewInput)
    (h : db.cafes.any (fun c => c.id == cafeId) = false) :
    update_rating_stats db cafeId = Except.error DbError.saveNoRowsUpdated
    ∧ ((db.reviews.any (fun r => r.userId == uid && r.cafeId == cafeId)) = false →
        reviewCreate db nid uid cafeId inp
          = Except.error (ApiError.dbError DbError.saveNoRowsUpdated)) := by
  refine ⟨update_rating_stats_err h, fun hdup => ?_⟩
  unfold reviewCreate
  rw [if_neg (by rw [hdup]; exact Bool.false_ne_true)]
  rw [update_rating_stats_err (show
      ({ db with reviews := db.reviews ++ [mkReviewRow nid uid cafeId inp] } : DB).cafes.any
        (fun c => c.id == cafeId) = false from h)]

/-- Witness for the amended C4 at the orphaned-review state. -/
theorem c4_missing_cafe_raises_witness :
    update_rating_stats orphanDb 1 = Except.error DbError.saveNoRowsUpdated
    ∧ reviewCreate orphanDb 2 9 1 inp0
        = Except.error (ApiError.dbError DbError.saveNoRowsUpdated) :=
  ⟨(c4_missing_cafe_raises orphanDb 1 2 9 inp0 (by decide)).1,
   (c4_missing_cafe_raises orphanDb 1 2 9 inp0 (by decide)).2 (by decide)⟩
